import Mathlib

/-!
Verification of `pdf_table_extractor.py` (repository jp-po).

The script orchestrates: download a PDF (`download_pdf`), detect tables with
camelot (external), aggregate them into one pandas DataFrame and write a CSV
(`extract_tables_to_single_csv`), driven by `main`.

Shallow embedding conventions:
* A pandas DataFrame is `DF`: an ordered column list plus rows, each row an
  association list from column label to cell value.  Camelot delivers each
  table as a DataFrame whose columns are the integers `0..w-1`
  (a `RangeIndex`); the script then assigns the scalar columns `table_id`
  and `table_page` (`df['table_id'] = i + 1`, `df['table_page'] = table.page`),
  which pandas implements as: overwrite the column if present, otherwise
  append it at the end, broadcasting the scalar to every existing row.
* `pd.concat([a, b], ignore_index=True)` appends rows and takes the union of
  the column lists, keeping first-appearance order (default `sort=False`);
  rows keep only their own entries, a missing entry reads back as NaN.
* `DataFrame.empty` is true iff the frame has no rows or no columns.
* `to_csv(path, index=False)` writes one header line with the column names
  and one line per row (missing entries as the empty string, `na_rep=''`),
  each line terminated by a newline, with minimal CSV quoting.
* The filesystem is an explicit `FS` (directory list + file map); the HTTP
  layer is an explicit `HttpResp` outcome; exception points of the Python
  code (requests errors, bad status, I/O failure, camelot raising) are the
  constructors / flags of those environments.
-/

set_option linter.unusedVariables false

namespace Pdf

/-- Cell value of the combined DataFrame: camelot cells are strings, the two
synthetic provenance columns hold the integers `i + 1` and `table.page`
(both non-negative in the source), and `na` is a missing entry (NaN). -/
inductive Val where
  | str (s : String)
  | num (n : Nat)
  | na
  deriving DecidableEq

/-- Column label: camelot's `RangeIndex` columns `0..w-1`, plus the two
columns assigned by the script at lines 119-120 of the source. -/
inductive Col where
  | data (j : Nat)
  | table_id
  | table_page
  deriving DecidableEq

/-- Membership test on a column list. -/
def colElem (c : Col) : List Col → Bool
  | [] => false
  | d :: ds => if d = c then true else colElem c ds

/-- Does a row (association list) carry an entry for column `c`? -/
def rowHasKey (c : Col) : List (Col × Val) → Bool
  | [] => false
  | e :: es => if e.1 = c then true else rowHasKey c es

/-- Overwrite every entry of column `c` in a row with value `v`. -/
def rowSetEntry (c : Col) (v : Val) : List (Col × Val) → List (Col × Val)
  | [] => []
  | e :: es => if e.1 = c then (c, v) :: rowSetEntry c v es else e :: rowSetEntry c v es

/-- pandas column assignment on one row: overwrite the entry if the column
exists, otherwise append it at the end of the row. -/
def rowSet (r : List (Col × Val)) (c : Col) (v : Val) : List (Col × Val) :=
  if rowHasKey c r then rowSetEntry c v r else r ++ [(c, v)]

/-- Read a cell from a row; a column the row has no entry for is NaN. -/
def lookupVal (c : Col) : List (Col × Val) → Val
  | [] => Val.na
  | e :: es => if e.1 = c then e.2 else lookupVal c es

/-- A pandas DataFrame: ordered columns and ordered rows. -/
structure DF where
  cols : List Col
  rows : List (List (Col × Val))
  deriving DecidableEq

/-- `pd.DataFrame()` (line 112 of the source). -/
def DF.emptyDF : DF := ⟨[], []⟩

/-- `DataFrame.empty`: no rows or no columns. -/
def DF.isEmpty (df : DF) : Bool := df.rows.isEmpty || df.cols.isEmpty

/-- `df[c] = v` with a scalar `v`: broadcast over all rows; the column is
appended at the end of the column order when new. -/
def DF.setCol (df : DF) (c : Col) (v : Val) : DF :=
  { cols := if colElem c df.cols then df.cols else df.cols ++ [c]
  , rows := df.rows.map (fun r => rowSet r c v) }

/-- `pd.concat([a, b], ignore_index=True)`: rows appended, columns the
first-appearance-order union; absent entries stay absent (NaN). -/
def DF.concat (a b : DF) : DF :=
  { cols := a.cols ++ b.cols.filter (fun c => !(colElem c a.cols))
  , rows := a.rows ++ b.rows }

/-- One table returned by `camelot.read_pdf`: its rectangular cell grid
(`table.df`, `w` columns) and its source page (`table.page`). -/
structure CamTable where
  cells : List (List String)
  ncols : Nat
  page : Nat
  deriving DecidableEq, Inhabited

/-- One row of `table.df`: entries for the integer columns `0..n-1`. -/
def dataRow (n : Nat) (r : List String) : List (Col × Val) :=
  (List.range n).map (fun j => (Col.data j, Val.str (r.getD j "")))

/-- `table.df`: the camelot table as a DataFrame over columns `0..w-1`. -/
def CamTable.df (t : CamTable) : DF :=
  { cols := (List.range t.ncols).map Col.data
  , rows := t.cells.map (fun r => dataRow t.ncols r) }

/-- Loop body of the source (lines 116-120): take `table.df`, assign
`df['table_id'] = i + 1` then `df['table_page'] = table.page`. -/
def processTable (i : Nat) (t : CamTable) : DF :=
  ((t.df).setCol Col.table_id (Val.num (i + 1))).setCol Col.table_page (Val.num t.page)

/-- The aggregation loop (lines 112-129): start from `pd.DataFrame()`;
for the table at 0-based index `i`, build `processTable i t`; if the
accumulator is `empty`, replace it, otherwise `pd.concat`. -/
def aggregateAux : List CamTable → Nat → DF → DF
  | [], _, acc => acc
  | t :: ts, i, acc =>
    aggregateAux ts (i + 1)
      (if (acc.isEmpty : Bool) then processTable i t else acc.concat (processTable i t))

/-- `aggregate tables` is the DataFrame the loop leaves in `all_tables_df`. -/
def aggregate (ts : List CamTable) : DF := aggregateAux ts 0 DF.emptyDF

/-- The `table_id` cells of a DataFrame, row by row. -/
def tableIdValues (df : DF) : List Val := df.rows.map (lookupVal Col.table_id)

/- ## CSV serialization (`to_csv(output_file, index=False)`) -/

/-- Join strings with a separator. -/
def joinSep (sep : String) : List String → String
  | [] => ""
  | [x] => x
  | x :: y :: ys => x ++ sep ++ joinSep sep (y :: ys)

/-- Concatenate a chunk list (the downloaded body). -/
def joinAll : List String → String
  | [] => ""
  | x :: xs => x ++ joinAll xs

/-- Double every quote character (CSV escaping). -/
def csvEscape (s : String) : String :=
  String.mk (s.data.foldr (fun c acc => if c = '"' then '"' :: '"' :: acc else c :: acc) [])

/-- Minimal CSV quoting: quote a field containing the delimiter, the quote
character or a line break. -/
def csvCell (s : String) : String :=
  if s.data.any (fun c => c = ',' || c = '"' || c = '\n' || c = '\r') then
    "\"" ++ csvEscape s ++ "\""
  else s

/-- Name of a column in the CSV header. -/
def colName : Col → String
  | .data j => toString j
  | .table_id => "table_id"
  | .table_page => "table_page"

/-- Rendering of a cell: strings as-is, integers in decimal, NaN empty. -/
def renderVal : Val → String
  | .str s => s
  | .num n => toString n
  | .na => ""

/-- The CSV header line (`index=False`: exactly the column names). -/
def headerLine (df : DF) : String :=
  joinSep "," (df.cols.map (fun c => csvCell (colName c)))

/-- One CSV data line: the row's cells in column order. -/
def rowLine (df : DF) (r : List (Col × Val)) : String :=
  joinSep "," (df.cols.map (fun c => csvCell (renderVal (lookupVal c r))))

/-- All lines of the CSV: header first, then one line per row. -/
def csvLines (df : DF) : List String :=
  headerLine df :: df.rows.map (fun r => rowLine df r)

/-- `df.to_csv(path, index=False)`: every line newline-terminated. -/
def DF.toCSV (df : DF) : String := joinSep "\n" (csvLines df) ++ "\n"

/- ## Path arithmetic (`os.path`) -/

/-- Is `pat` a prefix of `s` (character lists)? -/
def listStartsWith : List Char → List Char → Bool
  | _, [] => true
  | [], _ :: _ => false
  | c :: cs, d :: ds => if c = d then listStartsWith cs ds else false

/-- Does `s` contain `pat` as a contiguous substring? -/
def listContainsSub (pat : List Char) : List Char → Bool
  | [] => pat.isEmpty
  | c :: cs => listStartsWith (c :: cs) pat || listContainsSub pat cs

/-- Python `pat in s` on strings. -/
def strContains (s pat : String) : Bool := listContainsSub pat.data s.data

/-- Python `s.startswith(pre)`. -/
def strStartsWith (s pre : String) : Bool := listStartsWith s.data pre.data

/-- Python `s.endswith(suf)`. -/
def strEndsWith (s suf : String) : Bool := listStartsWith s.data.reverse suf.data.reverse

/-- ASCII lower-casing of one character (Python `str.lower`). -/
def charLower (c : Char) : Char :=
  if 'A' ≤ c && c ≤ 'Z' then Char.ofNat (c.toNat + 32) else c

/-- Python `s.lower()`. -/
def strLower (s : String) : String := String.mk (s.data.map charLower)

/-- `os.path.basename`: the part after the last slash. -/
def basename (p : String) : String :=
  String.mk ((p.data.reverse.takeWhile (fun c => c ≠ '/')).reverse)

/-- `os.path.splitext(b)[0]` for a slash-free name `b`: drop the suffix from
the last dot on, unless every character before that dot is itself a dot. -/
def stem (b : String) : String :=
  let rb := b.data.reverse
  let post := rb.takeWhile (fun c => c ≠ '.')
  if post.length = rb.length then b
  else
    let pre := rb.drop (post.length + 1)
    if pre.any (fun c => c ≠ '.') then String.mk pre.reverse else b

/-- `os.path.join(a, b)` (posix): `b` absolute wins; otherwise append,
inserting a slash unless `a` is empty or already ends with one. -/
def pathJoin (a b : String) : String :=
  if strStartsWith b "/" then b
  else if a = "" then b
  else if strEndsWith a "/" then a ++ b
  else a ++ "/" ++ b

/-- `os.path.dirname` (posix): everything up to the last slash, with
trailing slashes stripped unless the head is all slashes. -/
def dirname (p : String) : String :=
  let rp := p.data.reverse
  let base := rp.takeWhile (fun c => c ≠ '/')
  if base.length = rp.length then ""
  else
    let headRev := rp.drop base.length
    if headRev.all (fun c => c = '/') then String.mk headRev.reverse
    else String.mk ((headRev.dropWhile (fun c => c = '/')).reverse)

/- ## Filesystem and environment -/

/-- Membership test on a string list. -/
def strElem (x : String) : List String → Bool
  | [] => false
  | y :: ys => if y = x then true else strElem x ys

/-- Replace the entry for `p` (dropping stale ones) or append it. -/
def setFile (p c : String) : List (String × String) → List (String × String)
  | [] => [(p, c)]
  | e :: es => if e.1 = p then setFile p c es else e :: setFile p c es

/-- First entry for path `p`. -/
def getFile (p : String) : List (String × String) → Option String
  | [] => none
  | e :: es => if e.1 = p then some e.2 else getFile p es

/-- The filesystem state: existing directories and file contents. -/
structure FS where
  dirs : List String
  files : List (String × String)
  deriving DecidableEq

/-- `os.makedirs d`. -/
def FS.mkdir (fs : FS) (d : String) : FS := { fs with dirs := fs.dirs ++ [d] }

/-- `open(p, 'w')` + write + close: unconditional overwrite. -/
def FS.write (fs : FS) (p c : String) : FS := { fs with files := setFile p c fs.files }

/-- Content of the file at `p`, if any. -/
def FS.read (fs : FS) (p : String) : Option String := getFile p fs.files

/-- Lines 48-50 of the source: `save_dir = os.path.dirname(save_path)`;
`if save_dir and not os.path.exists(save_dir): os.makedirs(save_dir)`. -/
def mkdirForSave (save_path : String) (fs : FS) : FS :=
  let d := dirname save_path
  if d ≠ "" ∧ strElem d fs.dirs = false then fs.mkdir d else fs

/-- Lines 95-96 of the source: create `output_dir` if missing. -/
def ensureDir (d : String) (fs : FS) : FS :=
  if strElem d fs.dirs then fs else fs.mkdir d

/-- Outcome of `requests.get(url, stream=True, timeout=timeout)`: either the
call raised (`conn_error`: timeout, DNS, connection failure — all
`requests.RequestException`s) or a response with a status code, an optional
`Content-Type` header and a body chunk stream. -/
inductive HttpResp where
  | conn_error
  | resp (status : Nat) (contentType : Option String) (chunks : List String)
  deriving DecidableEq

/-- The effectful environment of one `download_pdf` call: the HTTP outcome
and whether the local file write succeeds (`IOError` point). -/
structure DLEnv where
  http : HttpResp
  writeOk : Bool
  deriving DecidableEq

/-- Result of `download_pdf`: the returned value (`save_path` or `None`),
the filesystem after the call, and whether the content-type warning
(line 59 of the source) was printed. -/
structure DLOut where
  ret : Option String
  fs : FS
  warned : Bool
  deriving DecidableEq

/-- `download_pdf(url, save_path, timeout)` (lines 33-79).  Every exception
point is an environment outcome; each `except` arm returns `None`.  The
timeout parameter only selects the `conn_error` outcome and has no other
effect, so it is folded into `DLEnv`. -/
def download_pdf (url save_path : String) (env : DLEnv) (fs0 : FS) : DLOut :=
  let fs1 := mkdirForSave save_path fs0
  match env.http with
  | .conn_error => ⟨none, fs1, false⟩
  | .resp status ct chunks =>
    if 400 ≤ status ∧ status < 600 then ⟨none, fs1, false⟩
    else
      let warned := !(strContains (strLower (ct.getD "")) "application/pdf")
                    && !(strEndsWith (strLower url) ".pdf")
      if env.writeOk then ⟨some save_path, fs1.write save_path (joinAll chunks), warned⟩
      else ⟨none, fs1, warned⟩

/-- Outcome of `camelot.read_pdf(pdf_path, pages='all')`: the detected
tables, or an exception (`err`). -/
inductive DetectResult where
  | ok (tables : List CamTable)
  | err
  deriving DecidableEq

/-- Result of `extract_tables_to_single_csv`: returned value and filesystem. -/
structure ExtOut where
  ret : Option String
  fs : FS
  deriving DecidableEq

/-- Lines 99-100 of the source: the output artifact path. -/
def outputPathFor (pdf_path output_dir : String) : String :=
  pathJoin output_dir (stem (basename pdf_path) ++ "_all_tables.csv")

/-- `extract_tables_to_single_csv(pdf_path, output_dir)` (lines 83-139):
create the output directory, compute the output path, run the detector; on
exception return `None`, otherwise aggregate and write the CSV. -/
def extract_tables_to_single_csv (pdf_path output_dir : String)
    (det : DetectResult) (fs0 : FS) : ExtOut :=
  let fs1 := ensureDir output_dir fs0
  let output_file := outputPathFor pdf_path output_dir
  match det with
  | .err => ⟨none, fs1⟩
  | .ok tables => ⟨some output_file, fs1.write output_file (aggregate tables).toCSV⟩

/-- The call in `main` (line 155) uses the default `output_dir='output'`. -/
def extractWithDefaultDir (pdf_path : String) (det : DetectResult) (fs : FS) : ExtOut :=
  extract_tables_to_single_csv pdf_path "output" det fs

/-- `main()` (lines 142-162): download, abort on `None`, otherwise extract.
The pipeline outcome is the final CSV path (if any) and the filesystem. -/
def main (pdf_url pdf_path : String) (env : DLEnv) (det : DetectResult)
    (fs0 : FS) : Option String × FS :=
  let d := download_pdf pdf_url pdf_path env fs0
  match d.ret with
  | none => (none, d.fs)
  | some p =>
    let e := extractWithDefaultDir p det d.fs
    (e.ret, e.fs)

/- ## Specification vocabulary -/

/-- The rows the loop contributes for tables starting at 0-based index `i`. -/
def rowsFrom : List CamTable → Nat → List (List (Col × Val))
  | [], _ => []
  | t :: ts, i => (processTable i t).rows ++ rowsFrom ts (i + 1)

/-- The `table_id` value the claim expects per row: the table at 0-based
index `i` contributes its row count many copies of `i + 1`, in order. -/
def idsFrom : List CamTable → Nat → List Val
  | [], _ => []
  | t :: ts, i => List.replicate t.cells.length (Val.num (i + 1)) ++ idsFrom ts (i + 1)

/-- Column order the spec expects when all tables have `w` camelot columns:
the first table's columns, then `table_id`, then `table_page`. -/
def expectedCols (w : Nat) : List Col :=
  (List.range w).map Col.data ++ [Col.table_id, Col.table_page]

/-- Sample table used by witnesses (spec §8 scenario). -/
def sampleTable : CamTable := ⟨[["A", "B"], ["1", "2"]], 2, 1⟩

/-- Sample table list used by witnesses. -/
def sampleTables : List CamTable := [sampleTable, ⟨[["x"]], 1, 2⟩]

/- ## Helper lemmas -/

lemma isEmpty_iff_nil {α : Type} (l : List α) : l.isEmpty = true ↔ l = [] := by
  cases l <;> simp

lemma colElem_append (c : Col) (l1 l2 : List Col) :
    colElem c (l1 ++ l2) = (colElem c l1 || colElem c l2) := by
  induction l1 with
  | nil => simp [colElem]
  | cons d ds ih =>
    by_cases h : d = c <;> simp [colElem, h, ih]

lemma colElem_tid_data (l : List Nat) : colElem Col.table_id (l.map Col.data) = false := by
  induction l with
  | nil => rfl
  | cons j js ih => simp [colElem, ih]

lemma colElem_tpg_data (l : List Nat) : colElem Col.table_page (l.map Col.data) = false := by
  induction l with
  | nil => rfl
  | cons j js ih => simp [colElem, ih]

lemma rowHasKey_append (c : Col) (l1 l2 : List (Col × Val)) :
    rowHasKey c (l1 ++ l2) = (rowHasKey c l1 || rowHasKey c l2) := by
  induction l1 with
  | nil => simp [rowHasKey]
  | cons e es ih =>
    by_cases h : e.1 = c <;> simp [rowHasKey, h, ih]

lemma rowHasKey_tid_map (l : List Nat) (f : Nat → Val) :
    rowHasKey Col.table_id (l.map fun j => (Col.data j, f j)) = false := by
  induction l with
  | nil => rfl
  | cons j js ih => simp [rowHasKey, ih]

lemma rowHasKey_tpg_map (l : List Nat) (f : Nat → Val) :
    rowHasKey Col.table_page (l.map fun j => (Col.data j, f j)) = false := by
  induction l with
  | nil => rfl
  | cons j js ih => simp [rowHasKey, ih]

lemma rowHasKey_tid_dataRow (n : Nat) (r : List String) :
    rowHasKey Col.table_id (dataRow n r) = false :=
  rowHasKey_tid_map (List.range n) _

lemma rowHasKey_tpg_dataRow (n : Nat) (r : List String) :
    rowHasKey Col.table_page (dataRow n r) = false :=
  rowHasKey_tpg_map (List.range n) _

lemma rowSet_not_has {c : Col} {v : Val} {r : List (Col × Val)}
    (h : rowHasKey c r = false) : rowSet r c v = r ++ [(c, v)] := by
  simp [rowSet, h]

lemma lookupVal_append_of_not (c : Col) (l1 l2 : List (Col × Val))
    (h : rowHasKey c l1 = false) : lookupVal c (l1 ++ l2) = lookupVal c l2 := by
  induction l1 with
  | nil => rfl
  | cons e es ih =>
    by_cases h1 : e.1 = c
    · simp [rowHasKey, h1] at h
    · simp [rowHasKey, h1] at h
      simp [lookupVal, h1, ih h]

lemma mapExt {α β : Type} (f g : α → β) (h : ∀ a, f a = g a) (l : List α) :
    l.map f = l.map g := by
  induction l with
  | nil => rfl
  | cons a l ih => simp [h, ih]

lemma mapConstLen {α β : Type} (l : List α) (b : β) :
    l.map (fun _ => b) = List.replicate l.length b := by
  induction l with
  | nil => rfl
  | cons a l ih => simp [List.replicate, ih]

lemma processTable_cols (i : Nat) (t : CamTable) :
    (processTable i t).cols = expectedCols t.ncols := by
  unfold processTable DF.setCol CamTable.df expectedCols
  simp [colElem_append, colElem_tid_data, colElem_tpg_data, colElem]

lemma processTable_cols_ne (i : Nat) (t : CamTable) : (processTable i t).cols ≠ [] := by
  rw [processTable_cols]
  simp [expectedCols]

lemma processTable_rows (i : Nat) (t : CamTable) :
    (processTable i t).rows
      = t.cells.map (fun r =>
          dataRow t.ncols r
            ++ [(Col.table_id, Val.num (i + 1)), (Col.table_page, Val.num t.page)]) := by
  unfold processTable DF.setCol CamTable.df
  simp only [List.map_map]
  apply mapExt
  intro r
  simp only [Function.comp]
  rw [rowSet_not_has (rowHasKey_tid_dataRow t.ncols r)]
  rw [rowSet_not_has (by
    rw [rowHasKey_append, rowHasKey_tpg_dataRow]
    simp [rowHasKey])]
  simp

lemma aggregateAux_rows : ∀ (ts : List CamTable) (i : Nat) (acc : DF),
    (acc.cols = [] → acc.rows = []) →
    (aggregateAux ts i acc).rows = acc.rows ++ rowsFrom ts i := by
  intro ts
  induction ts with
  | nil =>
    intro i acc h
    simp [aggregateAux, rowsFrom]
  | cons t ts ih =>
    intro i acc h
    simp only [aggregateAux]
    by_cases he : acc.isEmpty = true
    · rw [if_pos he]
      have hrows : acc.rows = [] := by
        unfold DF.isEmpty at he
        rcases Bool.or_eq_true_iff.mp he with h1 | h1
        · exact (isEmpty_iff_nil _).mp h1
        · exact h ((isEmpty_iff_nil _).mp h1)
      rw [ih (i + 1) (processTable i t) (fun hc => absurd hc (processTable_cols_ne i t))]
      rw [hrows, rowsFrom]
      simp
    · rw [if_neg he]
      have hcols : acc.cols ≠ [] := by
        intro hc
        apply he
        unfold DF.isEmpty
        rw [hc, h hc]
        rfl
      have hinv : (acc.concat (processTable i t)).cols = []
          → (acc.concat (processTable i t)).rows = [] := by
        intro hc
        exfalso
        unfold DF.concat at hc
        exact hcols (List.append_eq_nil.mp hc).1
      rw [ih (i + 1) _ hinv]
      rw [rowsFrom]
      simp [DF.concat, List.append_assoc]

lemma aggregate_rows (ts : List CamTable) : (aggregate ts).rows = rowsFrom ts 0 := by
  unfold aggregate
  rw [aggregateAux_rows ts 0 DF.emptyDF (fun _ => rfl)]
  rfl

lemma rowsFrom_length : ∀ (ts : List CamTable) (i : Nat),
    (rowsFrom ts i).length = (ts.map (fun t => t.cells.length)).sum := by
  intro ts
  induction ts with
  | nil => intro i; rfl
  | cons t ts ih =>
    intro i
    simp [rowsFrom, processTable_rows, ih]

lemma lookup_tid_row (n : Nat) (r : List String) (v w : Val) :
    lookupVal Col.table_id
      (dataRow n r ++ [(Col.table_id, v), (Col.table_page, w)]) = v := by
  rw [lookupVal_append_of_not _ _ _ (rowHasKey_tid_dataRow n r)]
  simp [lookupVal]

lemma idsFrom_eq : ∀ (ts : List CamTable) (i : Nat),
    (rowsFrom ts i).map (lookupVal Col.table_id) = idsFrom ts i := by
  intro ts
  induction ts with
  | nil => intro i; rfl
  | cons t ts ih =>
    intro i
    rw [rowsFrom, idsFrom, List.map_append, ih]
    congr 1
    rw [processTable_rows, List.map_map]
    rw [mapExt _ (fun _ => Val.num (i + 1)) (by
      intro r
      simp only [Function.comp]
      exact lookup_tid_row t.ncols r _ _)]
    exact mapConstLen t.cells _

lemma tableIdValues_aggregate (ts : List CamTable) :
    tableIdValues (aggregate ts) = idsFrom ts 0 := by
  unfold tableIdValues
  rw [aggregate_rows, idsFrom_eq]

lemma mem_idsFrom : ∀ (ts : List CamTable) (i k : Nat),
    (∀ t ∈ ts, t.cells ≠ []) → i + 1 ≤ k → k ≤ i + ts.length →
    Val.num k ∈ idsFrom ts i := by
  intro ts
  induction ts with
  | nil =>
    intro i k _ h1 h2
    exfalso
    simp at h2
    omega
  | cons t ts ih =>
    intro i k hne h1 h2
    rw [idsFrom]
    by_cases hk : k = i + 1
    · apply List.mem_append_left
      rw [hk]
      apply List.mem_replicate.mpr
      refine ⟨?_, rfl⟩
      intro h0
      exact hne t (List.mem_cons_self t ts) (List.eq_nil_of_length_eq_zero h0)
    · apply List.mem_append_right
      apply ih (i + 1) k (fun u hu => hne u (List.mem_cons_of_mem _ hu)) (by omega)
      simp at h2
      omega

lemma colElem_of_mem {c : Col} : ∀ {l : List Col}, c ∈ l → colElem c l = true := by
  intro l h
  induction l with
  | nil => cases h
  | cons d ds ih =>
    by_cases hd : d = c
    · simp [colElem, hd]
    · rcases List.mem_cons.mp h with h1 | h1
      · exact absurd h1.symm hd
      · simp [colElem, hd, ih h1]

lemma filter_self_nil (l : List Col) :
    (l.filter fun c => !(colElem c l)) = [] := by
  apply List.filter_eq_nil_iff.mpr
  intro c hc
  simp [colElem_of_mem hc]

lemma aggregateAux_cols (w : Nat) : ∀ (ts : List CamTable) (i : Nat) (acc : DF),
    (∀ t ∈ ts, t.ncols = w) → acc.cols = expectedCols w →
    (aggregateAux ts i acc).cols = expectedCols w := by
  intro ts
  induction ts with
  | nil =>
    intro i acc _ hacc
    simpa [aggregateAux] using hacc
  | cons t ts ih =>
    intro i acc hw hacc
    simp only [aggregateAux]
    have hpt : (processTable i t).cols = expectedCols w := by
      rw [processTable_cols, hw t (List.mem_cons_self t ts)]
    by_cases he : acc.isEmpty = true
    · rw [if_pos he]
      exact ih (i + 1) _ (fun u hu => hw u (List.mem_cons_of_mem _ hu)) hpt
    · rw [if_neg he]
      apply ih (i + 1) _ (fun u hu => hw u (List.mem_cons_of_mem _ hu))
      show (acc.cols ++ (processTable i t).cols.filter (fun c => !(colElem c acc.cols)))
          = expectedCols w
      rw [hacc, hpt, filter_self_nil, List.append_nil]

lemma aggregate_cols (w : Nat) (t0 : CamTable) (ts : List CamTable)
    (hw : ∀ t ∈ t0 :: ts, t.ncols = w) :
    (aggregate (t0 :: ts)).cols = expectedCols w := by
  unfold aggregate
  simp only [aggregateAux]
  rw [if_pos (show DF.emptyDF.isEmpty = true from rfl)]
  exact aggregateAux_cols w ts 1 _ (fun u hu => hw u (List.mem_cons_of_mem _ hu))
    (by rw [processTable_cols, hw t0 (List.mem_cons_self _ _)])

lemma getFile_setFile_self (p c : String) : ∀ l, getFile p (setFile p c l) = some c := by
  intro l
  induction l with
  | nil => simp [setFile, getFile]
  | cons e es ih =>
    by_cases h : e.1 = p
    · simp [setFile, h, ih]
    · simp [setFile, getFile, h, ih]

lemma FS.read_write_self (fs : FS) (p c : String) : (fs.write p c).read p = some c :=
  getFile_setFile_self p c fs.files

lemma ensureDir_files (d : String) (fs : FS) : (ensureDir d fs).files = fs.files := by
  unfold ensureDir
  split <;> rfl

lemma mkdirForSave_files (p : String) (fs : FS) : (mkdirForSave p fs).files = fs.files := by
  show (if dirname p ≠ "" ∧ strElem (dirname p) fs.dirs = false
      then fs.mkdir (dirname p) else fs).files = fs.files
  split <;> rfl

lemma strElem_append_self (x : String) : ∀ l, strElem x (l ++ [x]) = true := by
  intro l
  induction l with
  | nil => simp [strElem]
  | cons y ys ih => by_cases h : y = x <;> simp [strElem, h, ih]

lemma ensureDir_hasDir (d : String) (fs : FS) : strElem d (ensureDir d fs).dirs = true := by
  unfold ensureDir
  by_cases h : strElem d fs.dirs = true
  · rw [if_pos h]
    exact h
  · rw [if_neg h]
    exact strElem_append_self d fs.dirs

/- ## Claim theorems -/

/-- Claim C1, counterexample: a detected table with one camelot column and
zero rows is a non-empty input sequence (`N = 1`) on which the aggregated
row count is the sum of row counts (`0`), yet the `table_id` column does not
take the value `1` anywhere — the column receives no cells, so the values
are not exactly `1..N`. -/
theorem C1_counterexample :
    ((aggregate [⟨[], 1, 1⟩]).rows.length
        = (([⟨[], 1, 1⟩] : List CamTable).map (fun t => t.cells.length)).sum) ∧
    ¬ (Val.num 1 ∈ tableIdValues (aggregate [⟨[], 1, 1⟩])) := by
  decide

/-- Claim C1, amended: for every non-empty sequence of detected tables, the
aggregated row count equals the sum of the input row counts, and each row
contributed by the table at 0-based position `i` carries `table_id = i + 1`,
in input order (`idsFrom`); consequently, provided every input table has at
least one row, the `table_id` column takes exactly the values `1..N`. -/
theorem C1_amended (ts : List CamTable) (hne : ts ≠ []) :
    (aggregate ts).rows.length = (ts.map (fun t => t.cells.length)).sum ∧
    tableIdValues (aggregate ts) = idsFrom ts 0 ∧
    ((∀ t ∈ ts, t.cells ≠ []) →
      ∀ k : Nat, 1 ≤ k → k ≤ ts.length → Val.num k ∈ tableIdValues (aggregate ts)) := by
  refine ⟨?_, tableIdValues_aggregate ts, ?_⟩
  · rw [aggregate_rows, rowsFrom_length]
  · intro hall k h1 h2
    rw [tableIdValues_aggregate]
    exact mem_idsFrom ts 0 k hall (by omega) (by omega)

/-- Witness for C1: the amended claim evaluated on two concrete tables. -/
theorem C1_witness :
    sampleTables ≠ [] ∧
    ((aggregate sampleTables).rows.length
        = (sampleTables.map (fun t => t.cells.length)).sum ∧
     tableIdValues (aggregate sampleTables) = idsFrom sampleTables 0 ∧
     ((∀ t ∈ sampleTables, t.cells ≠ []) →
       ∀ k : Nat, 1 ≤ k → k ≤ sampleTables.length →
         Val.num k ∈ tableIdValues (aggregate sampleTables))) :=
  ⟨by decide, C1_amended sampleTables (by decide)⟩

/-- Claim C2, counterexample: with zero detected tables the CSV file is
created, but it holds a single empty header line `"\n"` — the synthetic
columns `table_id` and `table_page` are only ever attached inside the
per-table loop, which does not run — so the file does not contain the
claimed header row `table_id,table_page`. -/
theorem C2_counterexample :
    (extract_tables_to_single_csv "a.pdf" "output" (.ok []) ⟨[], []⟩).ret
        = some "output/a_all_tables.csv" ∧
    (extract_tables_to_single_csv "a.pdf" "output" (.ok []) ⟨[], []⟩).fs.read
        "output/a_all_tables.csv" = some "\n" ∧
    (extract_tables_to_single_csv "a.pdf" "output" (.ok []) ⟨[], []⟩).fs.read
        "output/a_all_tables.csv" ≠ some "table_id,table_page\n" := by
  decide

/-- Claim C2, amended: when the detector returns zero tables the Output
Artifact is still written — the function returns the output path (not
`None`, so the outcome is distinct from a hard failure) and the file
contains exactly one empty header row (no columns at all) and no data
rows. -/
theorem C2_amended (pdf_path : String) (fs : FS) :
    (extractWithDefaultDir pdf_path (.ok []) fs).ret
        = some (outputPathFor pdf_path "output") ∧
    (extractWithDefaultDir pdf_path (.ok []) fs).fs.read (outputPathFor pdf_path "output")
        = some "\n" := by
  constructor
  · rfl
  · show ((ensureDir "output" fs).write (outputPathFor pdf_path "output")
        (aggregate []).toCSV).read (outputPathFor pdf_path "output") = some "\n"
    rw [FS.read_write_self]
    decide

/-- Claim C3 (confirmed): whenever the table-detector call raises, the
function returns `None` and the filesystem's files are unchanged — in
particular the output CSV is not created. -/
theorem C3_detector_error (pdf_path output_dir : String) (fs : FS) :
    (extract_tables_to_single_csv pdf_path output_dir .err fs).ret = none ∧
    (extract_tables_to_single_csv pdf_path output_dir .err fs).fs.files = fs.files :=
  ⟨rfl, ensureDir_files output_dir fs⟩

/-- Claim C4 (confirmed): a response with a non-success status (any status
in 400..599, for which `raise_for_status` raises before any body streaming)
makes `download_pdf` return `None` with no file written, and `main` then
aborts: no extraction runs and no CSV is produced — the file map is exactly
the initial one. -/
theorem C4_http_error (url save_path : String) (status : Nat) (ct : Option String)
    (chunks : List String) (wOk : Bool) (det : DetectResult) (fs : FS)
    (h1 : 400 ≤ status) (h2 : status < 600) :
    (download_pdf url save_path ⟨.resp status ct chunks, wOk⟩ fs).ret = none ∧
    (download_pdf url save_path ⟨.resp status ct chunks, wOk⟩ fs).fs.files = fs.files ∧
    (main url save_path ⟨.resp status ct chunks, wOk⟩ det fs).1 = none ∧
    (main url save_path ⟨.resp status ct chunks, wOk⟩ det fs).2.files = fs.files := by
  have hd : download_pdf url save_path ⟨.resp status ct chunks, wOk⟩ fs
      = ⟨none, mkdirForSave save_path fs, false⟩ := by
    unfold download_pdf
    simp only []
    rw [if_pos ⟨h1, h2⟩]
  refine ⟨by rw [hd], by rw [hd]; exact mkdirForSave_files _ _, ?_, ?_⟩
  · unfold main
    rw [hd]
  · unfold main
    rw [hd]
    exact mkdirForSave_files _ _

/-- Witness for C4: a 404 response on a concrete run. -/
theorem C4_witness :
    400 ≤ 404 ∧ 404 < 600 ∧
    ((download_pdf "http://e/x.pdf" "tmp/x.pdf" ⟨.resp 404 none [], true⟩ ⟨[], []⟩).ret
        = none ∧
     (download_pdf "http://e/x.pdf" "tmp/x.pdf" ⟨.resp 404 none [], true⟩ ⟨[], []⟩).fs.files
        = (⟨[], []⟩ : FS).files ∧
     (main "http://e/x.pdf" "tmp/x.pdf" ⟨.resp 404 none [], true⟩ (.ok []) ⟨[], []⟩).1
        = none ∧
     (main "http://e/x.pdf" "tmp/x.pdf" ⟨.resp 404 none [], true⟩ (.ok []) ⟨[], []⟩).2.files
        = (⟨[], []⟩ : FS).files) :=
  ⟨by decide, by decide,
    C4_http_error "http://e/x.pdf" "tmp/x.pdf" 404 none [] true (.ok []) ⟨[], []⟩
      (by decide) (by decide)⟩

/-- Claim C5 (confirmed): when all detected tables share identical columns
(`w` camelot columns each), the unified column order is the first table's
column order followed by `table_id` then `table_page`, and the first line
of the written CSV is exactly that header — the column names in
first-introduced order, with no extra index column. -/
theorem C5_identical_columns (t0 : CamTable) (ts : List CamTable) (w : Nat)
    (hw : ∀ t ∈ t0 :: ts, t.ncols = w) :
    (aggregate (t0 :: ts)).cols = t0.df.cols ++ [Col.table_id, Col.table_page] ∧
    (csvLines (aggregate (t0 :: ts))).head?
        = some (joinSep "," ((t0.df.cols ++ [Col.table_id, Col.table_page]).map
            (fun c => csvCell (colName c)))) := by
  have hc : (aggregate (t0 :: ts)).cols = expectedCols w := aggregate_cols w t0 ts hw
  have ht0 : t0.df.cols = (List.range w).map Col.data := by
    show (List.range t0.ncols).map Col.data = _
    rw [hw t0 (List.mem_cons_self _ _)]
  constructor
  · rw [hc, ht0]
    rfl
  · show some (headerLine (aggregate (t0 :: ts))) = _
    unfold headerLine
    rw [hc, ht0]
    rfl

/-- Witness for C5: one concrete two-column table. -/
theorem C5_witness :
    (∀ t ∈ ([sampleTable] : List CamTable), t.ncols = 2) ∧
    ((aggregate [sampleTable]).cols
        = sampleTable.df.cols ++ [Col.table_id, Col.table_page] ∧
     (csvLines (aggregate [sampleTable])).head?
        = some (joinSep "," ((sampleTable.df.cols ++ [Col.table_id, Col.table_page]).map
            (fun c => csvCell (colName c))))) :=
  ⟨by decide, C5_identical_columns sampleTable [] 2 (by decide)⟩

/-- Claim C6 (confirmed): the aggregation and serialization are
deterministic — two runs on the same ordered table sequence return the same
value and leave byte-for-byte identical content at the output path,
whatever filesystem state each run starts from; that content is a function
of the input sequence alone. -/
theorem C6_deterministic (pdf_path : String) (ts : List CamTable) (fs1 fs2 : FS) :
    (extractWithDefaultDir pdf_path (.ok ts) fs1).ret
        = (extractWithDefaultDir pdf_path (.ok ts) fs2).ret ∧
    (extractWithDefaultDir pdf_path (.ok ts) fs1).fs.read (outputPathFor pdf_path "output")
        = (extractWithDefaultDir pdf_path (.ok ts) fs2).fs.read
            (outputPathFor pdf_path "output") ∧
    (extractWithDefaultDir pdf_path (.ok ts) fs1).fs.read (outputPathFor pdf_path "output")
        = some (aggregate ts).toCSV := by
  have h : ∀ fs : FS, (extractWithDefaultDir pdf_path (.ok ts) fs).fs.read
      (outputPathFor pdf_path "output") = some (aggregate ts).toCSV := by
    intro fs
    exact FS.read_write_self (ensureDir "output" fs) _ _
  exact ⟨rfl, by rw [h fs1, h fs2], h fs1⟩

/-- Claim C7 (confirmed): every successful run returns exactly
`{output_dir}/{base_filename}_all_tables.csv` with `output_dir = "output"`
(the default used by `main`) and `base_filename` the input file's basename
without extension, and the file at that path afterwards holds the freshly
serialized table — unconditionally overwriting whatever the arbitrary
initial filesystem held there. -/
theorem C7_output_path (pdf_path : String) (ts : List CamTable) (fs : FS) :
    (extractWithDefaultDir pdf_path (.ok ts) fs).ret
        = some (pathJoin "output" (stem (basename pdf_path) ++ "_all_tables.csv")) ∧
    (extractWithDefaultDir pdf_path (.ok ts) fs).fs.read
        (pathJoin "output" (stem (basename pdf_path) ++ "_all_tables.csv"))
        = some (aggregate ts).toCSV :=
  ⟨rfl, FS.read_write_self (ensureDir "output" fs) _ _⟩

/-- Claim C8, counterexample: for the URL `http://host/doc.pdf` and declared
content type `text/html` — not PDF-like — the download proceeds, yet no
warning is emitted, because the source only warns when the lowercased URL
also fails to end in `.pdf` (line 58). -/
theorem C8_counterexample :
    strContains (strLower "text/html") "application/pdf" = false ∧
    (download_pdf "http://host/doc.pdf" "tmp/doc.pdf"
        ⟨.resp 200 (some "text/html") ["x"], true⟩ ⟨[], []⟩).ret = some "tmp/doc.pdf" ∧
    (download_pdf "http://host/doc.pdf" "tmp/doc.pdf"
        ⟨.resp 200 (some "text/html") ["x"], true⟩ ⟨[], []⟩).warned = false := by
  decide

/-- Claim C8, amended: on a success-status response the download proceeds
regardless of the declared content type (it is never rejected on that
ground), and the non-fatal warning is emitted if and only if the content
type is not PDF-like AND the lowercased URL does not end in `.pdf`. -/
theorem C8_amended (url save_path : String) (ct : String) (chunks : List String)
    (fs : FS) (status : Nat) (hok : ¬ (400 ≤ status ∧ status < 600)) :
    (download_pdf url save_path ⟨.resp status (some ct) chunks, true⟩ fs).ret
        = some save_path ∧
    ((download_pdf url save_path ⟨.resp status (some ct) chunks, true⟩ fs).warned = true ↔
      (strContains (strLower ct) "application/pdf" = false ∧
       strEndsWith (strLower url) ".pdf" = false)) := by
  have hd : download_pdf url save_path ⟨.resp status (some ct) chunks, true⟩ fs
      = ⟨some save_path, (mkdirForSave save_path fs).write save_path (joinAll chunks),
          !(strContains (strLower ct) "application/pdf")
            && !(strEndsWith (strLower url) ".pdf")⟩ := by
    unfold download_pdf
    simp only []
    rw [if_neg hok]
    simp
  refine ⟨by rw [hd], ?_⟩
  rw [hd]
  show (!(strContains (strLower ct) "application/pdf")
      && !(strEndsWith (strLower url) ".pdf")) = true ↔ _
  cases hA : strContains (strLower ct) "application/pdf" <;>
    cases hB : strEndsWith (strLower url) ".pdf" <;> simp

/-- Witness for C8: warning emitted on a non-PDF content type when the URL
does not end in `.pdf`. -/
theorem C8_witness :
    ¬ (400 ≤ 200 ∧ 200 < 600) ∧
    ((download_pdf "http://h/x" "tmp/x.pdf"
        ⟨.resp 200 (some "text/html") ["x"], true⟩ ⟨[], []⟩).ret = some "tmp/x.pdf" ∧
     ((download_pdf "http://h/x" "tmp/x.pdf"
        ⟨.resp 200 (some "text/html") ["x"], true⟩ ⟨[], []⟩).warned = true ↔
       (strContains (strLower "text/html") "application/pdf" = false ∧
        strEndsWith (strLower "http://h/x") ".pdf" = false))) :=
  ⟨by decide,
    C8_amended "http://h/x" "tmp/x.pdf" "text/html" ["x"] ⟨[], []⟩ 200 (by decide)⟩

/-- Claim C9 (confirmed): `download_pdf` is total over every environment
outcome — connection failure, any status code, any content type, write
success or failure — always returning either the `save_path` it was given
or `None`; every exception point of the source sits inside its
`try`/`except` arms, each of which returns `None`. -/
theorem C9_total (url save_path : String) (env : DLEnv) (fs : FS) :
    (download_pdf url save_path env fs).ret = some save_path ∨
    (download_pdf url save_path env fs).ret = none := by
  unfold download_pdf
  cases env with
  | mk http wOk =>
    cases http with
    | conn_error =>
      right
      rfl
    | resp status ct chunks =>
      by_cases h : 400 ≤ status ∧ status < 600
      · right
        simp [h]
      · cases wOk
        · right
          simp [h]
        · left
          simp [h]

/-- Claim C10 (confirmed): `extract_tables_to_single_csv` creates the
output directory before the detector runs, so after every call — for both
detector outcomes, including the failing one that returns `None` — the
output directory exists; the side effect is not rolled back on error. -/
theorem C10_output_dir_created (pdf_path output_dir : String) (det : DetectResult)
    (fs : FS) :
    strElem output_dir (extract_tables_to_single_csv pdf_path output_dir det fs).fs.dirs
      = true := by
  cases det with
  | err => exact ensureDir_hasDir output_dir fs
  | ok ts => exact ensureDir_hasDir output_dir fs

end Pdf
